import Mathlib

/-!
Shallow embedding of the MM3000 market-making client, together with proofs
checking the natural-language specification against the code.

Prices, quantities and monetary amounts are Python floats in the source; they
are embedded as rationals (ℚ), so the theorems speak about the intended
real-number arithmetic of the code.  Feed versions are Python ints, embedded
as ℤ.  Wall-clock timestamps (time.time()) do not influence any verified
property and are omitted from the embedded records.
-/

/-! ## BookReplica: order_book.py -/

/-- One side of the order book.  The source keeps a Python dict mapping
price to quantity; it is embedded as an association list whose keys stay
unique because every write first removes the old entry for that price. -/
abbrev BookSide := List (ℚ × ℚ)

/-- Shared body of OrderBook.update_bid / OrderBook.update_ask
(order_book.py lines 14-24): a zero quantity pops the price, any other
quantity is stored at the price. -/
def sideUpdate (side : BookSide) (price quantity : ℚ) : BookSide :=
  if quantity = 0 then side.filter (fun e => decide (e.1 ≠ price))
  else (side.filter (fun e => decide (e.1 ≠ price))) ++ [(price, quantity)]

/-- Dict lookup with default 0, body of get_bid_quantity / get_ask_quantity
(order_book.py lines 44-48). -/
def sideQuantity (side : BookSide) (price : ℚ) : ℚ :=
  ((side.find? (fun e => decide (e.1 = price))).map Prod.snd).getD 0

structure OrderBook where
  bids : BookSide
  asks : BookSide
deriving DecidableEq

def emptyBook : OrderBook := ⟨[], []⟩

def OrderBook.update_bid (b : OrderBook) (price quantity : ℚ) : OrderBook :=
  { b with bids := sideUpdate b.bids price quantity }

def OrderBook.update_ask (b : OrderBook) (price quantity : ℚ) : OrderBook :=
  { b with asks := sideUpdate b.asks price quantity }

def OrderBook.get_bid_quantity (b : OrderBook) (price : ℚ) : ℚ :=
  sideQuantity b.bids price

def OrderBook.get_ask_quantity (b : OrderBook) (price : ℚ) : ℚ :=
  sideQuantity b.asks price

/-- max(bids.keys(), default=0.0), order_book.py line 27. -/
def OrderBook.get_best_bid (b : OrderBook) : ℚ :=
  ((b.bids.map Prod.fst).max?).getD 0

/-- min(asks.keys(), default=0.0), order_book.py line 30. -/
def OrderBook.get_best_ask (b : OrderBook) : ℚ :=
  ((b.asks.map Prod.fst).min?).getD 0

/-- sorted(bids.keys(), reverse=True)[1] when at least two levels exist,
else 0 (order_book.py lines 32-36). -/
def OrderBook.get_second_best_bid (b : OrderBook) : ℚ :=
  if b.bids.length < 2 then 0
  else ((b.bids.map Prod.fst).insertionSort (fun x y => decide (x ≥ y))).getD 1 0

/-- sorted(asks.keys())[1] when at least two levels exist, else 0
(order_book.py lines 38-42). -/
def OrderBook.get_second_best_ask (b : OrderBook) : ℚ :=
  if b.asks.length < 2 then 0
  else ((b.asks.map Prod.fst).insertionSort (fun x y => decide (x ≤ y))).getD 1 0

/-! ## FeedSynchronizer: websocket_client.py -/

inductive DeltaVersionStatus where
  | Valid
  | Outdated
  | GapDetected
  | NotSequential
deriving DecidableEq

/-- WebSocketClient.get_delta_version_status (websocket_client.py 46-53). -/
def get_delta_version_status (current_version from_version to_version : ℤ) :
    DeltaVersionStatus :=
  if to_version < current_version then .Outdated
  else if from_version > current_version + 1 then .GapDetected
  else if from_version ≠ current_version + 1 then .NotSequential
  else .Valid

/-- A parsed publicAggreDepths delta message. -/
structure Delta where
  fromVersion : ℤ
  toVersion : ℤ
  bids : List (ℚ × ℚ)
  asks : List (ℚ × ℚ)

/-- The mutable synchronizer state (symbol and websocket handle omitted),
together with the order book the update callbacks write into. -/
structure WSState where
  current_version : ℤ
  needs_resync : Bool
  book : OrderBook

/-- WebSocketClient.__init__ (websocket_client.py 14-20): current_version
starts at 0 and needs_resync starts at False; the book starts empty. -/
def initWSState : WSState := ⟨0, false, emptyBook⟩

/-- The orderbook_update_handler callback registered in run_fast_mm.py
lines 67-72 (identical in main.py): every bid level then every ask level of
the update is applied to the shared book. -/
def applyUpdateLevels (b : OrderBook) (bids asks : List (ℚ × ℚ)) : OrderBook :=
  let b1 := bids.foldl (fun acc e => acc.update_bid e.1 e.2) b
  asks.foldl (fun acc e => acc.update_ask e.1 e.2) b1

/-- WebSocketClient.handle_binary_delta (websocket_client.py 68-98) for a
message that parses to a publicAggreDepths payload, with the registered
update callback inlined.  A message that fails to parse leaves the state
untouched and is not modelled further. -/
def handle_binary_delta (s : WSState) (d : Delta) : WSState :=
  if s.needs_resync then s
  else
    let status := get_delta_version_status s.current_version d.fromVersion d.toVersion
    if status = DeltaVersionStatus.GapDetected ∨ status = DeltaVersionStatus.NotSequential then
      { s with needs_resync := true }
    else
      { s with book := applyUpdateLevels s.book d.bids d.asks,
               current_version := d.toVersion }

/-- A REST depth snapshot: levels plus the reported lastUpdateId. -/
structure Snapshot where
  bids : List (ℚ × ℚ)
  asks : List (ℚ × ℚ)
  lastUpdateId : ℤ

/-- WebSocketClient.get_order_book_snapshot (websocket_client.py 100-116)
with the registered orderbook_snapshot_handler (run_fast_mm.py 74-79)
inlined: the book is cleared and rebuilt from the snapshot levels, then
current_version is set to the snapshot's lastUpdateId and needs_resync is
cleared. -/
def get_order_book_snapshot (_s : WSState) (snap : Snapshot) : WSState :=
  { current_version := snap.lastUpdateId,
    needs_resync := false,
    book := applyUpdateLevels emptyBook snap.bids snap.asks }

/-! ## PnLTracker: pnl_tracker.py -/

structure Trade where
  order_id : String
  side : String
  price : ℚ
  quantity : ℚ

structure PnLState where
  trades : List Trade
  position : ℚ
  total_buy_value : ℚ
  total_sell_value : ℚ
  total_buy_quantity : ℚ
  total_sell_quantity : ℚ
  realized_pnl : ℚ
  fees_paid : ℚ
  fee_rate : ℚ

/-- PnLTracker.__init__ (pnl_tracker.py 14-23); fee_rate defaults 0.001. -/
def initPnLState : PnLState := ⟨[], 0, 0, 0, 0, 0, 0, 0, 1/1000⟩

/-- PnLTracker._update_realized_pnl (pnl_tracker.py 46-53): realized_pnl is
recomputed only when the matched quantity is positive. -/
def update_realized_pnl (s : PnLState) : PnLState :=
  let matched_quantity := min s.total_buy_quantity s.total_sell_quantity
  if matched_quantity > 0 then
    let avg_buy_price := if s.total_buy_quantity > 0 then s.total_buy_value / s.total_buy_quantity else 0
    let avg_sell_price := if s.total_sell_quantity > 0 then s.total_sell_value / s.total_sell_quantity else 0
    { s with realized_pnl := (avg_sell_price - avg_buy_price) * matched_quantity - s.fees_paid }
  else s

/-- PnLTracker.add_trade (pnl_tracker.py 25-44). -/
def add_trade (s : PnLState) (order_id side : String) (price quantity : ℚ) : PnLState :=
  let fee := price * quantity * s.fee_rate
  let s1 := { s with trades := s.trades ++ [(⟨order_id, side, price, quantity⟩ : Trade)],
                     fees_paid := s.fees_paid + fee }
  let s2 :=
    if side = "BUY" then
      { s1 with position := s1.position + quantity,
                total_buy_value := s1.total_buy_value + price * quantity,
                total_buy_quantity := s1.total_buy_quantity + quantity }
    else
      { s1 with position := s1.position - quantity,
                total_sell_value := s1.total_sell_value + price * quantity,
                total_sell_quantity := s1.total_sell_quantity + quantity }
  update_realized_pnl s2

/-! ## MarketMaker: market_maker.py -/

/-- Python round(x, 6): scale by 10^6, round to the nearest integer with
ties going to the even integer, scale back. -/
def pyRound6 (x : ℚ) : ℚ :=
  let y := x * 1000000
  let f : ℤ := ⌊y⌋
  let r := y - f
  let n : ℤ :=
    if r < 1/2 then f
    else if r > 1/2 then f + 1
    else if f % 2 = 0 then f else f + 1
  (n : ℚ) / 1000000

/-- MarketMaker dataclass PendingOrder (market_maker.py 8-15); the
placed_time field is a wall-clock value with no behavioural role and is
omitted. -/
structure PendingOrder where
  order_id : String
  side : String
  price : ℚ
  quantity : ℚ
  is_pending : Bool
deriving DecidableEq

/-- MarketMaker.__init__ constant tick_size = 0.000001. -/
def mmTickSize : ℚ := 1/1000000

/-- MarketMaker.__init__ constant order_quantity = 0.4. -/
def mmOrderQuantity : ℚ := 2/5

/-- MarketMaker.is_only_one_at_current_bid_level (market_maker.py 60-63):
compares the book's bid quantity at the order's price with the order's own
quantity. -/
def is_only_one_at_current_bid_level (book : OrderBook)
    (current_buy : Option PendingOrder) : Bool :=
  match current_buy with
  | none => false
  | some o => decide (book.get_bid_quantity o.price = o.quantity)

/-- MarketMaker.is_only_one_at_current_ask_level (market_maker.py 65-68).
The source reads get_bid_quantity here, not get_ask_quantity; the embedding
reproduces that line as written. -/
def is_only_one_at_current_ask_level (book : OrderBook)
    (current_sell : Option PendingOrder) : Bool :=
  match current_sell with
  | none => false
  | some o => decide (book.get_bid_quantity o.price = o.quantity)

/-- MarketMaker.should_cancel_current_buy (market_maker.py 70-74). -/
def should_cancel_current_buy (book : OrderBook) (o : PendingOrder) : Bool :=
  let distance_to_second_bid := pyRound6 (book.get_best_bid - book.get_second_best_bid)
  if is_only_one_at_current_bid_level book (some o) = true ∧
      distance_to_second_bid > mmTickSize then true
  else decide (o.price ≠ book.get_best_bid)

/-- MarketMaker.should_cancel_current_sell (market_maker.py 76-80). -/
def should_cancel_current_sell (book : OrderBook) (o : PendingOrder) : Bool :=
  let distance_to_second_ask := pyRound6 (book.get_second_best_ask - book.get_best_ask)
  if is_only_one_at_current_ask_level book (some o) = true ∧
      distance_to_second_ask > mmTickSize then true
  else decide (o.price ≠ book.get_best_ask)

/-- Result record of an OrderExecutor call (order_executor.py 8-16); the
fields the market maker reads. -/
structure OrderResponse where
  success : Bool
  order_id : String
  status : String

/-- Externally visible effects of one evaluation cycle. -/
inductive MMAction where
  | getStatus (order_id : String)
  | cancelOrder (order_id : String)
  | placeBuyLimit (price quantity : ℚ)
  | recordTrade (order_id side : String) (price quantity : ℚ)
deriving DecidableEq

/-- MarketMaker.check_current_buy_order (market_maker.py 82-104), with the
network responses passed in explicitly: status_resp answers the
get_order_status call and cancel_resp answers the cancel_order call (each
consulted only when the corresponding call is made).  Returns the new
current_buy value and the list of calls issued. -/
def check_current_buy_order (book : OrderBook) (current_buy : Option PendingOrder)
    (status_resp cancel_resp : OrderResponse) :
    Option PendingOrder × List MMAction :=
  match current_buy with
  | none => (none, [])
  | some o =>
    if o.order_id ≠ "" ∧ o.is_pending = false then
      if status_resp.success then
        if status_resp.status = "FILLED" ∨ status_resp.status = "CANCELED" then
          (none,
           [MMAction.getStatus o.order_id] ++
             (if status_resp.status = "FILLED" then
                [MMAction.recordTrade o.order_id "BUY" o.price o.quantity]
              else []))
        else if should_cancel_current_buy book o then
          if cancel_resp.success then
            (none, [MMAction.getStatus o.order_id, MMAction.cancelOrder o.order_id])
          else
            (some { o with is_pending := false },
             [MMAction.getStatus o.order_id, MMAction.cancelOrder o.order_id])
        else (some o, [MMAction.getStatus o.order_id])
      else (some o, [MMAction.getStatus o.order_id])
    else (some o, [])

/-- MarketMaker.place_new_buy_order_if_needed (market_maker.py 130-150),
with the place response passed in explicitly. -/
def place_new_buy_order_if_needed (book : OrderBook) (current_buy : Option PendingOrder)
    (place_resp : OrderResponse) : Option PendingOrder × List MMAction :=
  let cond : Bool :=
    match current_buy with
    | none => true
    | some o => decide (o.order_id = "") && !o.is_pending
  if cond then
    let buy_price := book.get_best_bid
    let placed : PendingOrder := ⟨"", "BUY", buy_price, mmOrderQuantity, true⟩
    if place_resp.success then
      (some { placed with order_id := place_resp.order_id, is_pending := false },
       [MMAction.placeBuyLimit buy_price mmOrderQuantity])
    else
      (none, [MMAction.placeBuyLimit buy_price mmOrderQuantity])
  else (current_buy, [])

/-- MarketMaker.handle_buy (market_maker.py 44-47): under the buy lock,
first check_current_buy_order, then place_new_buy_order_if_needed. -/
def handle_buy_cycle (book : OrderBook) (current_buy : Option PendingOrder)
    (status_resp cancel_resp place_resp : OrderResponse) :
    Option PendingOrder × List MMAction :=
  let r1 := check_current_buy_order book current_buy status_resp cancel_resp
  let r2 := place_new_buy_order_if_needed book r1.1 place_resp
  (r2.1, r1.2 ++ r2.2)

/-! ## FastMarketMaker: fast_market_maker.py -/

/-- The FastMarketMaker configuration fields read by
calculate_optimal_prices, with their __init__ defaults
(fast_market_maker.py 29-47). -/
structure FMMConfig where
  tick_size : ℚ
  target_spread_bps : ℚ
  max_position : ℚ
  use_randomization : Bool

def defaultFMMConfig : FMMConfig := ⟨1/1000000, 20, 500, true⟩

/-- One outcome of the random draws consumed by calculate_optimal_prices:
joinDraw is the event random.random() < 0.3 in the competition branch,
jitterDraw the event random.random() < 0.2, and the two jitters are the
random.choice([-1, 0, 1]) results. -/
structure RandDraws where
  joinDraw : Bool
  jitterDraw : Bool
  buyJitter : ℤ
  sellJitter : ℤ

/-- Competition detection as computed by on_orderbook_update
(fast_market_maker.py line 66): spread strictly below five ticks. -/
def competitionDetected (cfg : FMMConfig) (best_bid best_ask : ℚ) : Bool :=
  decide (best_ask - best_bid < cfg.tick_size * 5)

/-- FastMarketMaker.calculate_optimal_prices (fast_market_maker.py 81-122)
as a pure function of the configuration, the competition flag, the current
position, the top of book and the random draws.  The spread_bps argument of
the source is never read in the body and is omitted. -/
def calculate_optimal_prices (cfg : FMMConfig) (competition_detected : Bool)
    (position : ℚ) (best_bid best_ask : ℚ) (rnd : RandDraws) : ℚ × ℚ :=
  let pair0 : ℚ × ℚ :=
    if competition_detected then
      if cfg.use_randomization && rnd.joinDraw then (best_bid, best_ask)
      else (best_bid + cfg.tick_size, best_ask - cfg.tick_size)
    else
      let mid_price := (best_bid + best_ask) / 2
      let half_spread := cfg.target_spread_bps / 10000 * mid_price / 2
      let buy_price := pyRound6 (mid_price - half_spread)
      let sell_price := pyRound6 (mid_price + half_spread)
      (min buy_price (best_ask - cfg.tick_size),
       max sell_price (best_bid + cfg.tick_size))
  let pair1 : ℚ × ℚ :=
    if position > cfg.max_position * (1/2) then
      (pair0.1 - cfg.tick_size * 2, pair0.2 - cfg.tick_size)
    else if position < -(cfg.max_position * (1/2)) then
      (pair0.1 + cfg.tick_size, pair0.2 + cfg.tick_size * 2)
    else pair0
  if cfg.use_randomization && rnd.jitterDraw then
    (pair1.1 + cfg.tick_size * (rnd.buyJitter : ℚ),
     pair1.2 + cfg.tick_size * (rnd.sellJitter : ℚ))
  else pair1

/-! ## Concurrency model of one MarketMaker side

market_maker.py runs under asyncio: on_orderbook_update spawns a handle_buy
task (and a handle_sell task) per book update; execution is cooperative and
a task can only be preempted at an await.  handle_buy acquires buy_lock and
then runs check_current_buy_order followed by place_new_buy_order_if_needed,
suspending at the get_order_status, cancel_order and place_*_limit_order
network awaits.  The model below has one program counter per task, the
shared current order slot and the lock; every network response and every
book-dependent test outcome is a nondeterministic step parameter.  The buy
and sell sides use disjoint fields and disjoint locks, so one generic side
(with the side tag as a parameter) models both. -/

inductive TaskPC where
  | idle
  | waitLock
  | awaitStatus
  | awaitCancel
  | atPlace
  | awaitPlace
deriving DecidableEq

structure SideState where
  current_order : Option PendingOrder
  lockHolder : Option ℕ
  tasks : ℕ → TaskPC

/-- Guard of check_current_buy_order (market_maker.py line 83): an order
exists, its id is known and no operation is in flight for it. -/
def statusGuard (cur : Option PendingOrder) : Prop :=
  ∃ o, cur = some o ∧ o.order_id ≠ "" ∧ o.is_pending = false

/-- Guard of place_new_buy_order_if_needed (market_maker.py line 131). -/
def placeCond (cur : Option PendingOrder) : Prop :=
  cur = none ∨ ∃ o, cur = some o ∧ o.order_id = "" ∧ o.is_pending = false

instance (cur : Option PendingOrder) : Decidable (statusGuard cur) := by
  unfold statusGuard
  cases cur with
  | none => exact .isFalse (by simp)
  | some o => exact decidable_of_iff (o.order_id ≠ "" ∧ o.is_pending = false) (by simp)

instance (cur : Option PendingOrder) : Decidable (placeCond cur) := by
  unfold placeCond
  cases cur with
  | none => exact .isTrue (Or.inl rfl)
  | some o => exact decidable_of_iff (o.order_id = "" ∧ o.is_pending = false) (by simp)

/-- One interleaving step of the per-side machine.  Constructors whose
outcome depends on the environment (network responses, book contents, fill
status) take that outcome as a parameter, so the relation covers every
interleaving of book-update triggers and every response sequence. -/
inductive SideStep (side : String) : SideState → SideState → Prop where
  | spawn (s : SideState) (i : ℕ) :
      s.tasks i = .idle →
      SideStep side s { s with tasks := Function.update s.tasks i .waitLock }
  | acquirePoll (s : SideState) (i : ℕ) :
      s.tasks i = .waitLock → s.lockHolder = none →
      statusGuard s.current_order →
      SideStep side s { s with lockHolder := some i,
                               tasks := Function.update s.tasks i .awaitStatus }
  | acquireSkip (s : SideState) (i : ℕ) :
      s.tasks i = .waitLock → s.lockHolder = none →
      ¬ statusGuard s.current_order →
      SideStep side s { s with lockHolder := some i,
                               tasks := Function.update s.tasks i .atPlace }
  | statusKeep (s : SideState) (i : ℕ) :
      s.tasks i = .awaitStatus →
      SideStep side s { s with tasks := Function.update s.tasks i .atPlace }
  | statusTerminal (s : SideState) (i : ℕ) :
      s.tasks i = .awaitStatus →
      SideStep side s { s with current_order := none,
                               tasks := Function.update s.tasks i .atPlace }
  | statusCancelStart (s : SideState) (i : ℕ) (o : PendingOrder) :
      s.tasks i = .awaitStatus → s.current_order = some o →
      SideStep side s { s with current_order := some { o with is_pending := true },
                               tasks := Function.update s.tasks i .awaitCancel }
  | cancelOk (s : SideState) (i : ℕ) :
      s.tasks i = .awaitCancel →
      SideStep side s { s with current_order := none,
                               tasks := Function.update s.tasks i .atPlace }
  | cancelFail (s : SideState) (i : ℕ) (o : PendingOrder) :
      s.tasks i = .awaitCancel → s.current_order = some o →
      SideStep side s { s with current_order := some { o with is_pending := false },
                               tasks := Function.update s.tasks i .atPlace }
  | placeGo (s : SideState) (i : ℕ) (price quantity : ℚ) :
      s.tasks i = .atPlace → placeCond s.current_order →
      SideStep side s { s with
        current_order := some ⟨"", side, price, quantity, true⟩,
        tasks := Function.update s.tasks i .awaitPlace }
  | placeSkip (s : SideState) (i : ℕ) :
      s.tasks i = .atPlace → ¬ placeCond s.current_order →
      SideStep side s { s with lockHolder := none,
                               tasks := Function.update s.tasks i .idle }
  | placeOk (s : SideState) (i : ℕ) (o : PendingOrder) (oid : String) :
      s.tasks i = .awaitPlace → s.current_order = some o →
      SideStep side s { s with
        current_order := some { o with order_id := oid, is_pending := false },
        lockHolder := none,
        tasks := Function.update s.tasks i .idle }
  | placeFail (s : SideState) (i : ℕ) :
      s.tasks i = .awaitPlace →
      SideStep side s { s with current_order := none,
                               lockHolder := none,
                               tasks := Function.update s.tasks i .idle }

/-- MarketMaker.__init__: no order, lock free, no running task. -/
def initSideState : SideState := ⟨none, none, fun _ => .idle⟩

inductive SideReachable (side : String) : SideState → Prop where
  | init : SideReachable side initSideState
  | step (s s' : SideState) : SideReachable side s → SideStep side s s' →
      SideReachable side s'

/-- Program counters a task can only hold while it owns the side lock. -/
def ActivePC (pc : TaskPC) : Prop :=
  pc = .awaitStatus ∨ pc = .awaitCancel ∨ pc = .atPlace ∨ pc = .awaitPlace

/-- Inductive invariant of the side machine: every task in the critical
section is the unique lock holder, and a task awaiting a place response has
recorded the pending placeholder in the shared slot. -/
structure SideInv (s : SideState) : Prop where
  lockOwn : ∀ i, ActivePC (s.tasks i) → s.lockHolder = some i
  placing : ∀ i, s.tasks i = .awaitPlace →
    ∃ o, s.current_order = some o ∧ o.is_pending = true ∧ o.order_id = ""

/-- Number of non-Empty PendingOrder instances a side holds. -/
def orderCount (cur : Option PendingOrder) : ℕ :=
  match cur with
  | none => 0
  | some _ => 1

/-- A sequence of OrderBook.update_bid (flag true) / OrderBook.update_ask
(flag false) calls, applied in order. -/
def applyOps (ops : List (Bool × ℚ × ℚ)) (b : OrderBook) : OrderBook :=
  ops.foldl
    (fun acc op =>
      if op.1 then acc.update_bid op.2.1 op.2.2 else acc.update_ask op.2.1 op.2.2)
    b

/-! ## Helper lemmas about book sides -/

lemma find?_filter_ne (side : BookSide) (p x : ℚ) (hx : x ≠ p) :
    (side.filter (fun e => decide (e.1 ≠ p))).find? (fun e => decide (e.1 = x)) =
      side.find? (fun e => decide (e.1 = x)) := by
  rw [List.find?_filter]
  congr 1
  funext a
  by_cases h : a.1 = x
  · subst h
    simp [hx]
  · simp [h]

lemma find?_filter_self (side : BookSide) (p : ℚ) :
    (side.filter (fun e => decide (e.1 ≠ p))).find? (fun e => decide (e.1 = p)) = none := by
  rw [List.find?_eq_none]
  intro e he
  have := List.of_mem_filter he
  simpa using this

lemma sideQuantity_update_other (side : BookSide) (p q x : ℚ) (hx : x ≠ p) :
    sideQuantity (sideUpdate side p q) x = sideQuantity side x := by
  unfold sideUpdate sideQuantity
  by_cases hq : q = 0
  · rw [if_pos hq, find?_filter_ne side p x hx]
  · rw [if_neg hq, List.find?_append, find?_filter_ne side p x hx]
    cases h : side.find? (fun e => decide (e.1 = x)) with
    | some e => simp [h]
    | none => simp [h, List.find?, Ne.symm hx]

lemma sideQuantity_update_self (side : BookSide) (p q : ℚ) (hq : q ≠ 0) :
    sideQuantity (sideUpdate side p q) p = q := by
  unfold sideUpdate sideQuantity
  rw [if_neg hq, List.find?_append, find?_filter_self side p]
  simp [List.find?]

lemma sideQuantity_update_zero (side : BookSide) (p : ℚ) :
    sideQuantity (sideUpdate side p 0) p = 0 := by
  unfold sideUpdate sideQuantity
  rw [if_pos rfl, find?_filter_self side p]
  rfl

lemma sideQuantity_fold (levels : List (ℚ × ℚ)) (acc : BookSide)
    (h1 : (levels.map Prod.fst).Nodup) (h2 : ∀ e ∈ levels, e.2 ≠ 0) (p : ℚ) :
    sideQuantity (levels.foldl (fun a e => sideUpdate a e.1 e.2) acc) p =
      match levels.find? (fun e => decide (e.1 = p)) with
      | some e => e.2
      | none => sideQuantity acc p := by
  induction levels generalizing acc with
  | nil => rfl
  | cons hd rest ih =>
    have hnd : (rest.map Prod.fst).Nodup := (List.nodup_cons.mp (by simpa using h1)).2
    have hhd : hd.1 ∉ rest.map Prod.fst := (List.nodup_cons.mp (by simpa using h1)).1
    have h2r : ∀ e ∈ rest, e.2 ≠ 0 := fun e he => h2 e (List.mem_cons_of_mem hd he)
    by_cases hp : hd.1 = p
    · subst hp
      have hfind : rest.find? (fun e => decide (e.1 = hd.1)) = none := by
        rw [List.find?_eq_none]
        intro e he
        simp only [decide_eq_true_eq]
        intro hcontra
        exact hhd (hcontra ▸ List.mem_map_of_mem Prod.fst he)
      rw [List.foldl_cons, ih (sideUpdate acc hd.1 hd.2) hnd h2r]
      have heq : (decide (hd.1 = hd.1)) = true := by simp
      simp only [List.find?_cons, heq, hfind]
      exact sideQuantity_update_self acc hd.1 hd.2 (h2 hd (List.mem_cons_self hd rest))
    · rw [List.foldl_cons, ih (sideUpdate acc hd.1 hd.2) hnd h2r]
      have hdp : (decide (hd.1 = p)) = false := by simp [hp]
      simp only [List.find?_cons, hdp]
      cases hfind : rest.find? (fun e => decide (e.1 = p)) with
      | some e => simp [hfind]
      | none =>
        simp only [hfind]
        exact sideQuantity_update_other acc hd.1 hd.2 p (fun h => hp h.symm)

lemma applyUpdateLevels_bids (b : OrderBook) (bids asks : List (ℚ × ℚ)) :
    (applyUpdateLevels b bids asks).bids =
      bids.foldl (fun a e => sideUpdate a e.1 e.2) b.bids := by
  unfold applyUpdateLevels
  have hask : ∀ (l : List (ℚ × ℚ)) (c : OrderBook),
      (l.foldl (fun acc e => acc.update_ask e.1 e.2) c).bids = c.bids := by
    intro l
    induction l with
    | nil => intro c; rfl
    | cons hd rest ih => intro c; rw [List.foldl_cons, ih]; rfl
  rw [hask]
  have hbid : ∀ (l : List (ℚ × ℚ)) (c : OrderBook),
      (l.foldl (fun acc e => acc.update_bid e.1 e.2) c).bids =
        l.foldl (fun a e => sideUpdate a e.1 e.2) c.bids := by
    intro l
    induction l with
    | nil => intro c; rfl
    | cons hd rest ih => intro c; rw [List.foldl_cons, ih]; rfl
  exact hbid bids b

lemma applyUpdateLevels_asks (b : OrderBook) (bids asks : List (ℚ × ℚ)) :
    (applyUpdateLevels b bids asks).asks =
      asks.foldl (fun a e => sideUpdate a e.1 e.2) b.asks := by
  unfold applyUpdateLevels
  have hbid : ∀ (l : List (ℚ × ℚ)) (c : OrderBook),
      (l.foldl (fun acc e => acc.update_bid e.1 e.2) c).asks = c.asks := by
    intro l
    induction l with
    | nil => intro c; rfl
    | cons hd rest ih => intro c; rw [List.foldl_cons, ih]; rfl
  have hask : ∀ (l : List (ℚ × ℚ)) (c : OrderBook),
      (l.foldl (fun acc e => acc.update_ask e.1 e.2) c).asks =
        l.foldl (fun a e => sideUpdate a e.1 e.2) c.asks := by
    intro l
    induction l with
    | nil => intro c; rfl
    | cons hd rest ih => intro c; rw [List.foldl_cons, ih]; rfl
  rw [hask, hbid]

/-! ## Claim theorems -/

/-- C1: for currentVersion V and a delta spanning fromVersion..toVersion,
the classifier returns Outdated exactly when toVersion < V, else
GapDetected exactly when fromVersion > V+1, else NotSequential exactly when
fromVersion ≠ V+1, else Valid; and handling a Valid delta (with no resync
pending) sets currentVersion to toVersion. -/
theorem c1_delta_version_classification :
    (∀ v f t : ℤ,
      (get_delta_version_status v f t = DeltaVersionStatus.Outdated ↔ t < v) ∧
      (get_delta_version_status v f t = DeltaVersionStatus.GapDetected ↔
        ¬ t < v ∧ f > v + 1) ∧
      (get_delta_version_status v f t = DeltaVersionStatus.NotSequential ↔
        ¬ t < v ∧ ¬ f > v + 1 ∧ f ≠ v + 1) ∧
      (get_delta_version_status v f t = DeltaVersionStatus.Valid ↔
        ¬ t < v ∧ f = v + 1)) ∧
    (∀ (s : WSState) (d : Delta), s.needs_resync = false →
      get_delta_version_status s.current_version d.fromVersion d.toVersion =
        DeltaVersionStatus.Valid →
      (handle_binary_delta s d).current_version = d.toVersion) := by
  constructor
  · intro v f t
    unfold get_delta_version_status
    by_cases h1 : t < v
    · simp [h1]
    · by_cases h2 : f > v + 1
      · simp [h1, h2]
        omega
      · by_cases h3 : f = v + 1
        · simp [h1, h2, h3]
        · simp [h1, h2, h3]
  · intro s d hr hv
    unfold handle_binary_delta
    simp [hr, hv]

theorem c1_witness :
    (handle_binary_delta ⟨2, false, emptyBook⟩ ⟨3, 7, [], []⟩).current_version = 7 :=
  c1_delta_version_classification.2 ⟨2, false, emptyBook⟩ ⟨3, 7, [], []⟩ rfl (by decide)

/-- C2 (code bug evidence): with currentVersion 5, needsResync false and an
incoming delta spanning 1..2, the classifier reports Outdated, yet
handle_binary_delta applies the delta's levels to the book and lowers
currentVersion to 2, because the disposal test at websocket_client.py line
84 only checks GapDetected and NotSequential. -/
theorem c2_outdated_delta_not_discarded :
    get_delta_version_status 5 1 2 = DeltaVersionStatus.Outdated ∧
    (handle_binary_delta ⟨5, false, ⟨[(100, 2)], []⟩⟩ ⟨1, 2, [(10, 1)], []⟩).current_version = 2 ∧
    (handle_binary_delta ⟨5, false, ⟨[(100, 2)], []⟩⟩ ⟨1, 2, [(10, 1)], []⟩).book.get_bid_quantity 10 = 1 ∧
    (handle_binary_delta ⟨5, false, ⟨[(100, 2)], []⟩⟩ ⟨1, 2, [(10, 1)], []⟩).needs_resync = false := by
  refine ⟨by decide, by decide, by decide, by decide⟩

/-- C3: while needsResync is true every incoming delta leaves the state
completely unchanged; after the snapshot procedure runs, needsResync is
false, currentVersion equals the snapshot's reported lastUpdateId, and (for
a snapshot with distinct prices and nonzero quantities per side) each side
of the book holds exactly the snapshot's levels: the stored quantity at
every price is the snapshot's quantity there, 0 for absent prices. -/
theorem c3_resync_suppression_and_snapshot_baseline :
    (∀ (s : WSState) (d : Delta), s.needs_resync = true → handle_binary_delta s d = s) ∧
    (∀ (s : WSState) (snap : Snapshot),
      (get_order_book_snapshot s snap).needs_resync = false ∧
      (get_order_book_snapshot s snap).current_version = snap.lastUpdateId ∧
      ((snap.bids.map Prod.fst).Nodup → (∀ e ∈ snap.bids, e.2 ≠ 0) → ∀ p : ℚ,
        (get_order_book_snapshot s snap).book.get_bid_quantity p =
          ((snap.bids.find? (fun e => decide (e.1 = p))).map Prod.snd).getD 0) ∧
      ((snap.asks.map Prod.fst).Nodup → (∀ e ∈ snap.asks, e.2 ≠ 0) → ∀ p : ℚ,
        (get_order_book_snapshot s snap).book.get_ask_quantity p =
          ((snap.asks.find? (fun e => decide (e.1 = p))).map Prod.snd).getD 0)) := by
  constructor
  · intro s d hr
    unfold handle_binary_delta
    simp [hr]
  · intro s snap
    refine ⟨rfl, rfl, ?_, ?_⟩
    · intro hnd hnz p
      show sideQuantity (applyUpdateLevels emptyBook snap.bids snap.asks).bids p = _
      rw [applyUpdateLevels_bids, sideQuantity_fold snap.bids emptyBook.bids hnd hnz p]
      cases h : snap.bids.find? (fun e => decide (e.1 = p)) with
      | some e => simp [h]
      | none => simp [h, sideQuantity, emptyBook]
    · intro hnd hnz p
      show sideQuantity (applyUpdateLevels emptyBook snap.bids snap.asks).asks p = _
      rw [applyUpdateLevels_asks, sideQuantity_fold snap.asks emptyBook.asks hnd hnz p]
      cases h : snap.asks.find? (fun e => decide (e.1 = p)) with
      | some e => simp [h]
      | none => simp [h, sideQuantity, emptyBook]

theorem c3_witness :
    handle_binary_delta ⟨3, true, emptyBook⟩ ⟨4, 5, [(1, 1)], []⟩ = ⟨3, true, emptyBook⟩ ∧
    (get_order_book_snapshot initWSState ⟨[(2, 7)], [], 99⟩).book.get_bid_quantity 2 = 7 :=
  ⟨c3_resync_suppression_and_snapshot_baseline.1 ⟨3, true, emptyBook⟩ ⟨4, 5, [(1, 1)], []⟩ rfl,
   ((c3_resync_suppression_and_snapshot_baseline.2 initWSState
      ⟨[(2, 7)], [], 99⟩).2.2.1 (by decide) (by decide) 2).trans (by decide)⟩

/-- C9 counterexample: a freshly constructed WebSocketClient has
needs_resync = False (websocket_client.py line 18), not true as the claim
states; current_version is 0 as claimed. -/
theorem c9_counterexample :
    initWSState.current_version = 0 ∧ initWSState.needs_resync = false := by
  decide

/-- C9 amended: a freshly constructed synchronizer has currentVersion 0 and
needsResync false; needsResync becomes true only when an incoming delta
classifies as GapDetected or NotSequential, and the snapshot procedure
always leaves it false. -/
theorem c9_initial_state_amended :
    initWSState.current_version = 0 ∧ initWSState.needs_resync = false ∧
    (∀ (s : WSState) (d : Delta), s.needs_resync = false →
      (handle_binary_delta s d).needs_resync = true →
      (get_delta_version_status s.current_version d.fromVersion d.toVersion =
          DeltaVersionStatus.GapDetected ∨
        get_delta_version_status s.current_version d.fromVersion d.toVersion =
          DeltaVersionStatus.NotSequential)) ∧
    (∀ (s : WSState) (snap : Snapshot),
      (get_order_book_snapshot s snap).needs_resync = false) := by
  refine ⟨rfl, rfl, ?_, fun s snap => rfl⟩
  intro s d hr hflip
  by_cases hg : get_delta_version_status s.current_version d.fromVersion d.toVersion =
      DeltaVersionStatus.GapDetected ∨
      get_delta_version_status s.current_version d.fromVersion d.toVersion =
      DeltaVersionStatus.NotSequential
  · exact hg
  · exfalso
    unfold handle_binary_delta at hflip
    simp [hr, hg] at hflip

theorem c9_witness :
    get_delta_version_status 0 5 6 = DeltaVersionStatus.GapDetected ∨
    get_delta_version_status 0 5 6 = DeltaVersionStatus.NotSequential :=
  c9_initial_state_amended.2.2.1 ⟨0, false, emptyBook⟩ ⟨5, 6, [], []⟩ rfl (by decide)

/-- C6 counterexample: after a single BUY fill of 1 unit at price 100 from
the fresh tracker, fees_paid is 0.1 but realized_pnl stays 0, while the
claimed formula (avgSell − avgBuy) × min(totalBuyQty, totalSellQty) −
feesPaid evaluates to −0.1: _update_realized_pnl skips the recomputation
whenever the matched quantity is 0. -/
theorem c6_counterexample :
    (add_trade initPnLState "o1" "BUY" 100 1).realized_pnl = 0 ∧
    (add_trade initPnLState "o1" "BUY" 100 1).fees_paid = 1/10 ∧
    (add_trade initPnLState "o1" "BUY" 100 1).realized_pnl ≠
      ((if (add_trade initPnLState "o1" "BUY" 100 1).total_sell_quantity > 0 then
          (add_trade initPnLState "o1" "BUY" 100 1).total_sell_value /
            (add_trade initPnLState "o1" "BUY" 100 1).total_sell_quantity
        else 0) -
       (if (add_trade initPnLState "o1" "BUY" 100 1).total_buy_quantity > 0 then
          (add_trade initPnLState "o1" "BUY" 100 1).total_buy_value /
            (add_trade initPnLState "o1" "BUY" 100 1).total_buy_quantity
        else 0)) *
        min (add_trade initPnLState "o1" "BUY" 100 1).total_buy_quantity
          (add_trade initPnLState "o1" "BUY" 100 1).total_sell_quantity -
        (add_trade initPnLState "o1" "BUY" 100 1).fees_paid := by
  refine ⟨?_, ?_, ?_⟩ <;> norm_num [add_trade, update_realized_pnl, initPnLState]

/-- C6 amended: every add_trade call adds price × quantity × feeRate to
feesPaid and moves position by +quantity for a buy and −quantity otherwise;
whenever min(totalBuyQty, totalSellQty) is positive after the call,
realizedPnL equals (avgSellPrice − avgBuyPrice) × min(totalBuyQty,
totalSellQty) − feesPaid with the averages as in the claim; when that
matched quantity is 0 (or negative), realizedPnL is left unchanged. -/
theorem c6_add_trade_amended :
    ∀ (s : PnLState) (oid side : String) (price quantity : ℚ),
      ((add_trade s oid side price quantity).fees_paid =
        s.fees_paid + price * quantity * s.fee_rate) ∧
      (side = "BUY" →
        (add_trade s oid side price quantity).position = s.position + quantity) ∧
      (side ≠ "BUY" →
        (add_trade s oid side price quantity).position = s.position - quantity) ∧
      (min (add_trade s oid side price quantity).total_buy_quantity
          (add_trade s oid side price quantity).total_sell_quantity > 0 →
        (add_trade s oid side price quantity).realized_pnl =
          ((if (add_trade s oid side price quantity).total_sell_quantity > 0 then
              (add_trade s oid side price quantity).total_sell_value /
                (add_trade s oid side price quantity).total_sell_quantity
            else 0) -
           (if (add_trade s oid side price quantity).total_buy_quantity > 0 then
              (add_trade s oid side price quantity).total_buy_value /
                (add_trade s oid side price quantity).total_buy_quantity
            else 0)) *
            min (add_trade s oid side price quantity).total_buy_quantity
              (add_trade s oid side price quantity).total_sell_quantity -
            (add_trade s oid side price quantity).fees_paid) ∧
      (¬ min (add_trade s oid side price quantity).total_buy_quantity
          (add_trade s oid side price quantity).total_sell_quantity > 0 →
        (add_trade s oid side price quantity).realized_pnl = s.realized_pnl) := by
  intro s oid side price quantity
  unfold add_trade update_realized_pnl
  by_cases hside : side = "BUY" <;>
    simp only [hside, ite_true, ite_false, reduceIte] <;>
    split <;>
    simp_all

theorem c6_witness :
    (add_trade (add_trade initPnLState "a" "BUY" 100 10) "b" "SELL" 110 5).realized_pnl =
      969/20 :=
  ((c6_add_trade_amended (add_trade initPnLState "a" "BUY" 100 10) "b" "SELL" 110 5).2.2.2.1
    (by simp [add_trade, update_realized_pnl, initPnLState])).trans
    (by simp [add_trade, update_realized_pnl, initPnLState]; norm_num)

/-- C8 counterexample: update_bid stores a negative quantity verbatim: the
removal test at order_book.py line 15 compares against exactly 0, so an
update with quantity −1 persists price 1 with quantity −1 ≤ 0 on the bid
side, contradicting the claim for arbitrary quantity arguments. -/
theorem c8_counterexample :
    ((1 : ℚ), (-1 : ℚ)) ∈ (emptyBook.update_bid 1 (-1)).bids ∧
    (emptyBook.update_bid 1 (-1)).get_bid_quantity 1 = -1 ∧
    ((-1 : ℚ) ≤ 0) := by
  refine ⟨by decide, by decide, by norm_num⟩

/-- C8 amended: for every sequence of update_bid/update_ask calls whose
quantity arguments are all nonnegative, no price is ever stored on either
side with quantity ≤ 0 (an update with a negative quantity would be stored
verbatim, hence the restriction); an update with quantity 0 removes the
price from the side, applying it again is a no-op, and the stored quantity
reads 0 for a price absent from the side. -/
theorem c8_book_positivity_amended :
    (∀ (ops : List (Bool × ℚ × ℚ)), (∀ op ∈ ops, 0 ≤ op.2.2) →
      (∀ e ∈ (applyOps ops emptyBook).bids, 0 < e.2) ∧
      (∀ e ∈ (applyOps ops emptyBook).asks, 0 < e.2)) ∧
    (∀ (side : BookSide) (p : ℚ), ∀ e ∈ sideUpdate side p 0, e.1 ≠ p) ∧
    (∀ (side : BookSide) (p : ℚ),
      sideUpdate (sideUpdate side p 0) p 0 = sideUpdate side p 0) ∧
    (∀ (side : BookSide) (p : ℚ), (∀ e ∈ side, e.1 ≠ p) → sideQuantity side p = 0) := by
  have hupd : ∀ (side : BookSide) (p q : ℚ), 0 ≤ q → (∀ e ∈ side, 0 < e.2) →
      ∀ e ∈ sideUpdate side p q, 0 < e.2 := by
    intro side p q hq hside e he
    unfold sideUpdate at he
    by_cases h0 : q = 0
    · rw [if_pos h0] at he
      exact hside e (List.mem_of_mem_filter he)
    · rw [if_neg h0] at he
      rcases List.mem_append.mp he with h | h
      · exact hside e (List.mem_of_mem_filter h)
      · have : e = (p, q) := by simpa using h
        rw [this]
        exact lt_of_le_of_ne hq (fun hc => h0 hc.symm)
  refine ⟨?_, ?_, ?_, ?_⟩
  · intro ops hnn
    have main : ∀ (ops : List (Bool × ℚ × ℚ)) (b : OrderBook),
        (∀ op ∈ ops, 0 ≤ op.2.2) →
        (∀ e ∈ b.bids, 0 < e.2) → (∀ e ∈ b.asks, 0 < e.2) →
        (∀ e ∈ (applyOps ops b).bids, 0 < e.2) ∧
        (∀ e ∈ (applyOps ops b).asks, 0 < e.2) := by
      intro ops
      induction ops with
      | nil => intro b _ hb ha; exact ⟨hb, ha⟩
      | cons op rest ih =>
        intro b hnn hb ha
        have hop : 0 ≤ op.2.2 := hnn op (List.mem_cons_self op rest)
        have hrest : ∀ o ∈ rest, 0 ≤ o.2.2 := fun o ho => hnn o (List.mem_cons_of_mem op ho)
        unfold applyOps
        rw [List.foldl_cons]
        by_cases hside : op.1
        · have := ih (b.update_bid op.2.1 op.2.2) hrest
            (hupd b.bids op.2.1 op.2.2 hop hb) ha
          simpa [applyOps, hside] using this
        · have := ih (b.update_ask op.2.1 op.2.2) hrest
            hb (hupd b.asks op.2.1 op.2.2 hop ha)
          simpa [applyOps, hside] using this
    exact main ops emptyBook hnn (by simp [emptyBook]) (by simp [emptyBook])
  · intro side p e he
    unfold sideUpdate at he
    rw [if_pos rfl] at he
    have := List.of_mem_filter he
    simpa using this
  · intro side p
    unfold sideUpdate
    rw [if_pos rfl, if_pos rfl, List.filter_filter]
    congr 1
    funext a
    exact Bool.and_self _
  · intro side p habs
    unfold sideQuantity
    have : side.find? (fun e => decide (e.1 = p)) = none := by
      rw [List.find?_eq_none]
      intro e he
      simpa using habs e he
    rw [this]
    rfl

theorem c8_witness :
    (0 : ℚ) < ((5 : ℚ), (2 : ℚ)).2 ∧ sideQuantity [((3 : ℚ), (1 : ℚ))] 2 = 0 :=
  ⟨(c8_book_positivity_amended.1 [(true, 5, 2)] (by norm_num)).1 (5, 2) (by decide),
   c8_book_positivity_amended.2.2.2 [((3 : ℚ), (1 : ℚ))] 2 (by decide)⟩

/-- C10: when the status poll for an Active order (order_id known, not
pending) returns success = false, the whole buy evaluation cycle changes
nothing: the order survives with all its fields, and the only call issued
is the status poll itself - no cancel, no trade record, no new placement. -/
theorem c10_failed_status_poll_noop :
    ∀ (book : OrderBook) (o : PendingOrder)
      (status_resp cancel_resp place_resp : OrderResponse),
      o.order_id ≠ "" → o.is_pending = false → status_resp.success = false →
      handle_buy_cycle book (some o) status_resp cancel_resp place_resp =
        (some o, [MMAction.getStatus o.order_id]) := by
  intro book o sr cr pr hid hpend hfail
  unfold handle_buy_cycle check_current_buy_order place_new_buy_order_if_needed
  simp [hid, hpend, hfail]

theorem c10_witness :
    handle_buy_cycle emptyBook (some ⟨"42", "BUY", 10, 2/5, false⟩)
        ⟨false, "", ""⟩ ⟨false, "", ""⟩ ⟨true, "x", ""⟩ =
      (some ⟨"42", "BUY", 10, 2/5, false⟩, [MMAction.getStatus "42"]) :=
  c10_failed_status_poll_noop emptyBook ⟨"42", "BUY", 10, 2/5, false⟩
    ⟨false, "", ""⟩ ⟨false, "", ""⟩ ⟨true, "x", ""⟩ (by simp) rfl rfl

/-- C5 (code bug evidence): with asks [(10,5), (20,3)], no bids, and an
Active sell order of quantity 5 resting at the best ask 10, the order is
the sole resting quantity at its own (ask) level and the gap to the second
best ask exceeds one tick, so the claimed policy fires; yet
should_cancel_current_sell returns false because
is_only_one_at_current_ask_level reads the BID quantity at the order's
price (market_maker.py line 68), which is 0 and differs from 5. -/
theorem c5_sell_sole_level_reads_bid_side :
    should_cancel_current_sell ⟨[], [(10, 5), (20, 3)]⟩ ⟨"7", "SELL", 10, 5, false⟩ = false ∧
    OrderBook.get_ask_quantity ⟨[], [(10, 5), (20, 3)]⟩ 10 = 5 ∧
    OrderBook.get_bid_quantity ⟨[], [(10, 5), (20, 3)]⟩ 10 = 0 ∧
    is_only_one_at_current_ask_level ⟨[], [(10, 5), (20, 3)]⟩
      (some ⟨"7", "SELL", 10, 5, false⟩) = false ∧
    OrderBook.get_best_ask ⟨[], [(10, 5), (20, 3)]⟩ = 10 ∧
    OrderBook.get_second_best_ask ⟨[], [(10, 5), (20, 3)]⟩ -
      OrderBook.get_best_ask ⟨[], [(10, 5), (20, 3)]⟩ > mmTickSize := by
  refine ⟨?_, by decide, by decide, by decide, by decide, by norm_num [OrderBook.get_best_ask, OrderBook.get_second_best_ask, mmTickSize]⟩
  norm_num [should_cancel_current_sell, is_only_one_at_current_ask_level,
    OrderBook.get_bid_quantity, OrderBook.get_best_ask, OrderBook.get_second_best_ask,
    sideQuantity, pyRound6, mmTickSize]

/-- C7 counterexample: with the default configuration, bestBid = 0.0005 and
bestAsk = 0.000501 (one tick apart, so competition is detected), a neutral
position and a random outcome that takes the improve-by-one-tick branch
with no jitter, the computed buy price is bestBid + tick = bestAsk, which
exceeds bestAsk − tick: the SpreadAntiGaming policy does cross the market
bound for some books and random outcomes. -/
theorem c7_counterexample :
    competitionDetected defaultFMMConfig (1/2000) (501/1000000) = true ∧
    (calculate_optimal_prices defaultFMMConfig true 0 (1/2000) (501/1000000)
        ⟨false, false, 0, 0⟩).1 >
      501/1000000 - defaultFMMConfig.tick_size := by
  constructor <;>
    norm_num [competitionDetected, calculate_optimal_prices, defaultFMMConfig]

/-- C7 amended: in the no-competition branch, for every configuration and
book, with the position inside the skew-free band (|position| ≤
maxPosition/2) and the jitter draw not firing, the clamped prices never
cross: buyPrice ≤ bestAsk − tick and sellPrice ≥ bestBid + tick.  (In the
competition branch, or once position skew or jitter applies, the bound can
fail, as the counterexample shows.) -/
theorem c7_no_cross_amended :
    ∀ (cfg : FMMConfig) (position best_bid best_ask : ℚ) (rnd : RandDraws),
      rnd.jitterDraw = false →
      -(cfg.max_position * (1/2)) ≤ position →
      position ≤ cfg.max_position * (1/2) →
      (calculate_optimal_prices cfg false position best_bid best_ask rnd).1 ≤
        best_ask - cfg.tick_size ∧
      (calculate_optimal_prices cfg false position best_bid best_ask rnd).2 ≥
        best_bid + cfg.tick_size := by
  intro cfg pos bb ba rnd hj hlo hhi
  have h1 : ¬ pos > cfg.max_position * (1/2) := not_lt.mpr hhi
  have h2 : ¬ pos < -(cfg.max_position * (1/2)) := not_lt.mpr hlo
  unfold calculate_optimal_prices
  simp only [h1, h2, hj, Bool.and_false, if_false, ite_false, Bool.false_eq_true, reduceIte]
  exact ⟨min_le_right _ _, le_max_right _ _⟩

theorem c7_witness :
    (calculate_optimal_prices defaultFMMConfig false 0 1 2
        ⟨false, false, 0, 0⟩).1 ≤ 2 - defaultFMMConfig.tick_size ∧
    (calculate_optimal_prices defaultFMMConfig false 0 1 2
        ⟨false, false, 0, 0⟩).2 ≥ 1 + defaultFMMConfig.tick_size :=
  c7_no_cross_amended defaultFMMConfig 0 1 2 ⟨false, false, 0, 0⟩ rfl
    (by norm_num [defaultFMMConfig]) (by norm_num [defaultFMMConfig])

lemma update_cases (f : ℕ → TaskPC) (i j : ℕ) (pc' : TaskPC) (P : TaskPC → Prop)
    (h : P (Function.update f i pc' j)) : (j = i ∧ P pc') ∨ (j ≠ i ∧ P (f j)) := by
  by_cases hji : j = i
  · subst hji
    rw [Function.update_same] at h
    exact Or.inl ⟨rfl, h⟩
  · rw [Function.update_noteq hji] at h
    exact Or.inr ⟨hji, h⟩

lemma lockUnique {s : SideState} (hinv : SideInv s) {i j : ℕ}
    (hi : ActivePC (s.tasks i)) (hj : ActivePC (s.tasks j)) : i = j := by
  have h1 := hinv.lockOwn i hi
  have h2 := hinv.lockOwn j hj
  rw [h1] at h2
  exact Option.some.inj h2

lemma sideInv_step {side : String} {s s' : SideState}
    (hinv : SideInv s) (hstep : SideStep side s s') : SideInv s' := by
  cases hstep with
  | spawn i hi =>
    refine ⟨?_, ?_⟩
    · intro j hj
      dsimp only at hj ⊢
      rcases update_cases s.tasks i j _ ActivePC hj with ⟨hji, hp⟩ | ⟨hji, hp⟩
      · exact absurd hp (by simp [ActivePC])
      · exact hinv.lockOwn j hp
    · intro j hj
      dsimp only at hj ⊢
      rcases update_cases s.tasks i j _ (fun pc => pc = TaskPC.awaitPlace) hj with
        ⟨hji, hp⟩ | ⟨hji, hp⟩
      · exact absurd hp (by simp)
      · exact hinv.placing j hp
  | acquirePoll i hi hlock hguard =>
    refine ⟨?_, ?_⟩
    · intro j hj
      dsimp only at hj ⊢
      rcases update_cases s.tasks i j _ ActivePC hj with ⟨hji, _⟩ | ⟨hji, hp⟩
      · subst hji
        rfl
      · exfalso
        have h0 := hinv.lockOwn j hp
        rw [hlock] at h0
        exact Option.noConfusion h0
    · intro j hj
      dsimp only at hj ⊢
      rcases update_cases s.tasks i j _ (fun pc => pc = TaskPC.awaitPlace) hj with
        ⟨hji, hp⟩ | ⟨hji, hp⟩
      · exact absurd hp (by simp)
      · exfalso
        have h0 := hinv.lockOwn j (by rw [hp]; simp [ActivePC])
        rw [hlock] at h0
        exact Option.noConfusion h0
  | acquireSkip i hi hlock hguard =>
    refine ⟨?_, ?_⟩
    · intro j hj
      dsimp only at hj ⊢
      rcases update_cases s.tasks i j _ ActivePC hj with ⟨hji, _⟩ | ⟨hji, hp⟩
      · subst hji
        rfl
      · exfalso
        have h0 := hinv.lockOwn j hp
        rw [hlock] at h0
        exact Option.noConfusion h0
    · intro j hj
      dsimp only at hj ⊢
      rcases update_cases s.tasks i j _ (fun pc => pc = TaskPC.awaitPlace) hj with
        ⟨hji, hp⟩ | ⟨hji, hp⟩
      · exact absurd hp (by simp)
      · exfalso
        have h0 := hinv.lockOwn j (by rw [hp]; simp [ActivePC])
        rw [hlock] at h0
        exact Option.noConfusion h0
  | statusKeep i hi =>
    refine ⟨?_, ?_⟩
    · intro j hj
      dsimp only at hj ⊢
      rcases update_cases s.tasks i j _ ActivePC hj with ⟨hji, _⟩ | ⟨hji, hp⟩
      · subst hji
        exact hinv.lockOwn j (by rw [hi]; simp [ActivePC])
      · exact hinv.lockOwn j hp
    · intro j hj
      dsimp only at hj ⊢
      rcases update_cases s.tasks i j _ (fun pc => pc = TaskPC.awaitPlace) hj with
        ⟨hji, hp⟩ | ⟨hji, hp⟩
      · exact absurd hp (by simp)
      · exact hinv.placing j hp
  | statusTerminal i hi =>
    refine ⟨?_, ?_⟩
    · intro j hj
      dsimp only at hj ⊢
      rcases update_cases s.tasks i j _ ActivePC hj with ⟨hji, _⟩ | ⟨hji, hp⟩
      · subst hji
        exact hinv.lockOwn j (by rw [hi]; simp [ActivePC])
      · exact hinv.lockOwn j hp
    · intro j hj
      dsimp only at hj ⊢
      rcases update_cases s.tasks i j _ (fun pc => pc = TaskPC.awaitPlace) hj with
        ⟨hji, hp⟩ | ⟨hji, hp⟩
      · exact absurd hp (by simp)
      · exact absurd (lockUnique hinv (show ActivePC (s.tasks j) by rw [hp]; simp [ActivePC])
          (show ActivePC (s.tasks i) by rw [hi]; simp [ActivePC])) hji
  | statusCancelStart i o hi ho =>
    refine ⟨?_, ?_⟩
    · intro j hj
      dsimp only at hj ⊢
      rcases update_cases s.tasks i j _ ActivePC hj with ⟨hji, _⟩ | ⟨hji, hp⟩
      · subst hji
        exact hinv.lockOwn j (by rw [hi]; simp [ActivePC])
      · exact hinv.lockOwn j hp
    · intro j hj
      dsimp only at hj ⊢
      rcases update_cases s.tasks i j _ (fun pc => pc = TaskPC.awaitPlace) hj with
        ⟨hji, hp⟩ | ⟨hji, hp⟩
      · exact absurd hp (by simp)
      · exact absurd (lockUnique hinv (show ActivePC (s.tasks j) by rw [hp]; simp [ActivePC])
          (show ActivePC (s.tasks i) by rw [hi]; simp [ActivePC])) hji
  | cancelOk i hi =>
    refine ⟨?_, ?_⟩
    · intro j hj
      dsimp only at hj ⊢
      rcases update_cases s.tasks i j _ ActivePC hj with ⟨hji, _⟩ | ⟨hji, hp⟩
      · subst hji
        exact hinv.lockOwn j (by rw [hi]; simp [ActivePC])
      · exact hinv.lockOwn j hp
    · intro j hj
      dsimp only at hj ⊢
      rcases update_cases s.tasks i j _ (fun pc => pc = TaskPC.awaitPlace) hj with
        ⟨hji, hp⟩ | ⟨hji, hp⟩
      · exact absurd hp (by simp)
      · exact absurd (lockUnique hinv (show ActivePC (s.tasks j) by rw [hp]; simp [ActivePC])
          (show ActivePC (s.tasks i) by rw [hi]; simp [ActivePC])) hji
  | cancelFail i o hi ho =>
    refine ⟨?_, ?_⟩
    · intro j hj
      dsimp only at hj ⊢
      rcases update_cases s.tasks i j _ ActivePC hj with ⟨hji, _⟩ | ⟨hji, hp⟩
      · subst hji
        exact hinv.lockOwn j (by rw [hi]; simp [ActivePC])
      · exact hinv.lockOwn j hp
    · intro j hj
      dsimp only at hj ⊢
      rcases update_cases s.tasks i j _ (fun pc => pc = TaskPC.awaitPlace) hj with
        ⟨hji, hp⟩ | ⟨hji, hp⟩
      · exact absurd hp (by simp)
      · exact absurd (lockUnique hinv (show ActivePC (s.tasks j) by rw [hp]; simp [ActivePC])
          (show ActivePC (s.tasks i) by rw [hi]; simp [ActivePC])) hji
  | placeGo i price quantity hi hcond =>
    refine ⟨?_, ?_⟩
    · intro j hj
      dsimp only at hj ⊢
      rcases update_cases s.tasks i j _ ActivePC hj with ⟨hji, _⟩ | ⟨hji, hp⟩
      · subst hji
        exact hinv.lockOwn j (by rw [hi]; simp [ActivePC])
      · exact hinv.lockOwn j hp
    · intro j hj
      dsimp only at hj ⊢
      rcases update_cases s.tasks i j _ (fun pc => pc = TaskPC.awaitPlace) hj with
        ⟨hji, hp⟩ | ⟨hji, hp⟩
      · exact ⟨⟨"", side, price, quantity, true⟩, rfl, rfl, rfl⟩
      · exact absurd (lockUnique hinv (show ActivePC (s.tasks j) by rw [hp]; simp [ActivePC])
          (show ActivePC (s.tasks i) by rw [hi]; simp [ActivePC])) hji
  | placeSkip i hi hcond =>
    refine ⟨?_, ?_⟩
    · intro j hj
      dsimp only at hj ⊢
      rcases update_cases s.tasks i j _ ActivePC hj with ⟨hji, hp⟩ | ⟨hji, hp⟩
      · exact absurd hp (by simp [ActivePC])
      · exact absurd (lockUnique hinv hp
          (show ActivePC (s.tasks i) by rw [hi]; simp [ActivePC])) hji
    · intro j hj
      dsimp only at hj ⊢
      rcases update_cases s.tasks i j _ (fun pc => pc = TaskPC.awaitPlace) hj with
        ⟨hji, hp⟩ | ⟨hji, hp⟩
      · exact absurd hp (by simp)
      · exact absurd (lockUnique hinv (show ActivePC (s.tasks j) by rw [hp]; simp [ActivePC])
          (show ActivePC (s.tasks i) by rw [hi]; simp [ActivePC])) hji
  | placeOk i o oid hi ho =>
    refine ⟨?_, ?_⟩
    · intro j hj
      dsimp only at hj ⊢
      rcases update_cases s.tasks i j _ ActivePC hj with ⟨hji, hp⟩ | ⟨hji, hp⟩
      · exact absurd hp (by simp [ActivePC])
      · exact absurd (lockUnique hinv hp
          (show ActivePC (s.tasks i) by rw [hi]; simp [ActivePC])) hji
    · intro j hj
      dsimp only at hj ⊢
      rcases update_cases s.tasks i j _ (fun pc => pc = TaskPC.awaitPlace) hj with
        ⟨hji, hp⟩ | ⟨hji, hp⟩
      · exact absurd hp (by simp)
      · exact absurd (lockUnique hinv (show ActivePC (s.tasks j) by rw [hp]; simp [ActivePC])
          (show ActivePC (s.tasks i) by rw [hi]; simp [ActivePC])) hji
  | placeFail i hi =>
    refine ⟨?_, ?_⟩
    · intro j hj
      dsimp only at hj ⊢
      rcases update_cases s.tasks i j _ ActivePC hj with ⟨hji, hp⟩ | ⟨hji, hp⟩
      · exact absurd hp (by simp [ActivePC])
      · exact absurd (lockUnique hinv hp
          (show ActivePC (s.tasks i) by rw [hi]; simp [ActivePC])) hji
    · intro j hj
      dsimp only at hj ⊢
      rcases update_cases s.tasks i j _ (fun pc => pc = TaskPC.awaitPlace) hj with
        ⟨hji, hp⟩ | ⟨hji, hp⟩
      · exact absurd hp (by simp)
      · exact absurd (lockUnique hinv (show ActivePC (s.tasks j) by rw [hp]; simp [ActivePC])
          (show ActivePC (s.tasks i) by rw [hi]; simp [ActivePC])) hji

lemma sideInv_reachable (side : String) (s : SideState)
    (hr : SideReachable side s) : SideInv s := by
  induction hr with
  | init =>
    refine ⟨?_, ?_⟩
    · intro i hi
      simp only [initSideState] at hi
      exact absurd hi (by simp [ActivePC])
    · intro i hi
      simp only [initSideState] at hi
      exact absurd hi (by simp)
  | step s s' hr hstep ih => exact sideInv_step ih hstep

/-- C4: in every state reachable under any interleaving of book-update
triggers (spawned handle tasks) and any network/response outcomes, a side
holds at most one non-Empty PendingOrder; at most one task per side is ever
between recording the placeholder and receiving the place response (no
double submit); and while a place call is in flight the shared slot holds
the placeholder with pendingFlag true and no order id, recorded before the
network call. -/
theorem c4_at_most_one_order_per_side :
    ∀ (side : String) (s : SideState), SideReachable side s →
      orderCount s.current_order ≤ 1 ∧
      (∀ i j, s.tasks i = TaskPC.awaitPlace → s.tasks j = TaskPC.awaitPlace → i = j) ∧
      (∀ i, s.tasks i = TaskPC.awaitPlace →
        ∃ o, s.current_order = some o ∧ o.is_pending = true ∧ o.order_id = "") := by
  intro side s hr
  have h := sideInv_reachable side s hr
  refine ⟨?_, ?_, h.placing⟩
  · cases s.current_order <;> simp [orderCount]
  · intro i j hi hj
    have h1 := h.lockOwn i (by rw [hi]; simp [ActivePC])
    have h2 := h.lockOwn j (by rw [hj]; simp [ActivePC])
    rw [h1] at h2
    exact Option.some.inj h2

theorem c4_witness :
    orderCount initSideState.current_order ≤ 1 ∧
    orderCount ({ initSideState with
      tasks := Function.update initSideState.tasks 0 TaskPC.waitLock } : SideState).current_order ≤ 1 :=
  ⟨(c4_at_most_one_order_per_side "BUY" initSideState SideReachable.init).1,
   (c4_at_most_one_order_per_side "BUY" _
     (SideReachable.step _ _ SideReachable.init (SideStep.spawn initSideState 0 rfl))).1⟩
